import Mathlib

/-!
Shallow embedding of `src/dockerizado/app.py` (equipment-loan ledger).

The sqlite database is modelled as three lists kept in rowid (insertion)
order plus the AUTOINCREMENT counters.  Each Python function that touches
the database becomes a Lean function on this state; the `datetime.now()`
timestamp is passed in explicitly as a `Nat`.
-/

namespace Prestamos

/-- A row of the `transacciones` table (schema at app.py lines 49-62). -/
structure Transaccion where
  id : Nat
  equipo_id : String
  empleado : String
  email : String
  area : String
  tipo_operacion : String
  fecha_hora : Nat
  observaciones : String
  responsable : String
deriving DecidableEq, Repr

/-- A row of the `equipos` table (schema at app.py lines 27-34). -/
structure Equipo where
  id : String
  nombre : String
  tipo : String
  estado : String
deriving DecidableEq, Repr

/-- A row of the `empleados` table (schema at app.py lines 37-46). -/
structure Empleado where
  id : Nat
  nombre : String
  apellido : String
  area : String
  email : String
deriving DecidableEq, Repr

/-- The sqlite database: the three tables in rowid order plus the
AUTOINCREMENT counters for `transacciones.id` and `empleados.id`. -/
structure DB where
  equipos : List Equipo
  empleados : List Empleado
  transacciones : List Transaccion
  nextTransId : Nat
  nextEmpId : Nat
deriving DecidableEq, Repr

/-- The freshly initialised database (`init_database` creates empty tables;
sqlite AUTOINCREMENT starts at 1). -/
def DB.vacia : DB := ⟨[], [], [], 1, 1⟩

/-- `SELECT ... FROM transacciones WHERE equipo_id = ?` in rowid order. -/
def txnsFor (db : DB) (eid : String) : List Transaccion :=
  db.transacciones.filter (fun t => t.equipo_id == eid)

/-- `ORDER BY fecha_hora DESC LIMIT 1` over a rowid-ordered row list:
sqlite scans the rows in rowid order keeping a single best row, replacing
it only when a later row's sort key is strictly larger, so on equal
`fecha_hora` the earliest-scanned (smallest rowid) row is kept.  The query
has no secondary ORDER BY term on `id`. -/
def selectLastBest : Option Transaccion → List Transaccion → Option Transaccion
  | best, [] => best
  | none, t :: rest => selectLastBest (some t) rest
  | some b, t :: rest =>
      selectLastBest (some (if b.fecha_hora < t.fecha_hora then t else b)) rest

/-- The row returned by the query at app.py lines 104-110. -/
def getLastTransaction (db : DB) (eid : String) : Option Transaccion :=
  selectLastBest none (txnsFor db eid)

/-- `obtener_estado_equipo` (app.py lines 100-121): derive
(status, holder, timestamp) from the last transaction. -/
def obtener_estado_equipo (db : DB) (eid : String) :
    String × Option String × Option Nat :=
  match getLastTransaction db eid with
  | some t =>
      if t.tipo_operacion == "Entrega" then
        ("Prestado", some t.empleado, some t.fecha_hora)
      else
        ("Disponible", none, some t.fecha_hora)
  | none => ("Disponible", none, none)

/-- Post-state written to the `estado` cache by `registrar_transaccion`:
`'Prestado' if tipo_operacion == 'Entrega' else 'Disponible'` (app.py
line 137). -/
def estadoTrasOperacion (tipo : String) : String :=
  if tipo == "Entrega" then "Prestado" else "Disponible"

/-- `registrar_transaccion` (app.py lines 124-141): append the transaction
row and update the `estado` cache of the equipment in one call.  The
`fecha_hora` written is `datetime.now()`, here passed in as `fecha`. -/
def registrar_transaccion (db : DB) (eid emp email area tipo obs resp : String)
    (fecha : Nat) : DB :=
  let t : Transaccion :=
    ⟨db.nextTransId, eid, emp, email, area, tipo, fecha, obs, resp⟩
  { db with
    transacciones := db.transacciones ++ [t]
    equipos := db.equipos.map (fun e =>
      if e.id == eid then { e with estado := estadoTrasOperacion tipo } else e)
    nextTransId := db.nextTransId + 1 }

/-- `agregar_equipo` (app.py lines 144-156): INSERT with the `estado`
column defaulting to `'Disponible'`; a duplicate primary key raises
`IntegrityError`, caught and turned into `False` with no change. -/
def agregar_equipo (db : DB) (eid nombre tipo : String) : Bool × DB :=
  if db.equipos.any (fun e => e.id == eid) then
    (false, db)
  else
    (true, { db with equipos := db.equipos ++ [⟨eid, nombre, tipo, "Disponible"⟩] })

/-- Outcome of the "Registrar Operación" button handler. -/
inductive Resultado where
  | exito
  | equipoInexistente
  | faltanCampos
  | transicionIlegal
deriving DecidableEq, Repr

/-- The "Registrar Operación" button handler (app.py lines 586-631):
look up the cached `estado` of the equipment, validate the required
fields for the operation kind, validate the state transition, and only
then call `registrar_transaccion`.  Python string truthiness makes the
field checks non-emptiness checks. -/
def registrarOperacion (db : DB) (eid tipo emp email area obs resp : String)
    (fecha : Nat) : Resultado × DB :=
  match db.equipos.find? (fun e => e.id == eid) with
  | none => (.equipoInexistente, db)
  | some e =>
      let camposOk : Bool :=
        if tipo == "Entrega" then emp != "" && resp != ""
        else if tipo == "Devolución" then resp != ""
        else false
      if !camposOk then (.faltanCampos, db)
      else if tipo == "Entrega" && e.estado == "Prestado" then
        (.transicionIlegal, db)
      else if tipo == "Devolución" && e.estado == "Disponible" then
        (.transicionIlegal, db)
      else (.exito, registrar_transaccion db eid emp email area tipo obs resp fecha)

/-- `eliminar_empleado` (app.py lines 302-313): `DELETE FROM empleados
WHERE id = ?`; a DELETE matching no row still succeeds, so the function
returns `True` unconditionally. -/
def eliminar_empleado (db : DB) (empId : Nat) : Bool × DB :=
  (true, { db with empleados := db.empleados.filter (fun e => !(e.id == empId)) })

/-- A (name, email, area) row of the active-borrowers report. -/
abbrev Fila := String × String × String

/-- `obtener_empleados_activos` (app.py lines 214-228):
`SELECT DISTINCT empleado, email, area FROM transacciones WHERE
tipo_operacion = 'Entrega' ORDER BY empleado`.  DISTINCT removes duplicate
(empleado, email, area) triples; ORDER BY sorts by the `empleado` column
only. -/
def obtener_empleados_activos (db : DB) : List Fila :=
  List.insertionSort (fun a b : Fila => a.1 ≤ b.1)
    (((db.transacciones.filter (fun t => t.tipo_operacion == "Entrega")).map
      (fun t => (t.empleado, t.email, t.area))).dedup)

/-- The kinds `ks`, read chronologically starting from state `est`,
strictly alternate along the `Disponible --Entrega--> Prestado
--Devolución--> Disponible` state machine: from `Disponible` the next kind
must be `Entrega`, from `Prestado` it must be `Devolución`.
`cadenaValida "Disponible" ks = true` says `ks` strictly alternates
starting with `Entrega` (Issue). -/
def cadenaValida (est : String) : List String → Bool
  | [] => true
  | k :: rest =>
      if est == "Disponible" then k == "Entrega" && cadenaValida "Prestado" rest
      else if est == "Prestado" then k == "Devolución" && cadenaValida "Disponible" rest
      else false

/-- State of the machine after running the kinds `ks` from `est`. -/
def estadoFinalFrom (est : String) (ks : List String) : String :=
  ks.foldl (fun _ k => estadoTrasOperacion k) est

/-- State of the machine after running the kinds `ks` from `Disponible`. -/
def estadoFinal (ks : List String) : String :=
  estadoFinalFrom "Disponible" ks

/-- An externally triggered write operation: registering an equipment
(the "Agregar Equipo" button) or recording an Issue/Return (the
"Registrar Operación" button), with the `datetime.now()` value the
recording would observe. -/
inductive Op where
  | altaEquipo (eid nombre tipo : String)
  | operacion (eid tipo emp email area obs resp : String) (fecha : Nat)

/-- Run one operation against the database, keeping the resulting state. -/
def aplicar (db : DB) : Op → DB
  | .altaEquipo eid nombre tipo => (agregar_equipo db eid nombre tipo).2
  | .operacion eid tipo emp email area obs resp fecha =>
      (registrarOperacion db eid tipo emp email area obs resp fecha).2

/-- Run a sequence of operations from a starting database. -/
def ejecutar (db : DB) (ops : List Op) : DB :=
  ops.foldl aplicar db

/-- The clock values observed by the recording operations of the list. -/
def fechas : List Op → List Nat
  | [] => []
  | .altaEquipo _ _ _ :: ops => fechas ops
  | .operacion _ _ _ _ _ _ _ f :: ops => f :: fechas ops

/-- An employee row of the uploaded CSV, as extracted by the column-name
fallback `row.get('area', row.get('Area', row.get('AREA', '')))` and the
`str(...)` coercion (app.py lines 279-282). -/
structure FilaCSV where
  area : String
  nombre : String
  apellido : String
  email : String

/-- A CSV row is rejected when `area`, `nombre` or `apellido` is blank
after stripping (app.py line 284); `email` is never checked. -/
def filaIncompleta (f : FilaCSV) : Bool :=
  f.area.trim == "" || f.nombre.trim == "" || f.apellido.trim == ""

/-- Row loop of `importar_empleados_csv` starting at DataFrame index
`idx`: an incomplete row contributes an error message and no insert, a
complete row is inserted with the stripped field values. -/
def importarDesde (db : DB) (idx : Nat) : List FilaCSV → Nat × List String × DB
  | [] => (0, [], db)
  | f :: rest =>
      if filaIncompleta f then
        let r := importarDesde db (idx + 1) rest
        (r.1, s!"Fila {idx + 2}: Faltan datos requeridos (área, nombre o apellido)" :: r.2.1, r.2.2)
      else
        let db1 : DB := { db with
          empleados := db.empleados ++
            [⟨db.nextEmpId, f.nombre.trim, f.apellido.trim, f.area.trim, f.email.trim⟩]
          nextEmpId := db.nextEmpId + 1 }
        let r := importarDesde db1 (idx + 1) rest
        (r.1 + 1, r.2.1, r.2.2)

/-- `importar_empleados_csv` (app.py lines 264-300): iterate over the CSV
rows collecting an error list, return `(total imported, errors)`.
Lines 279-282 of the source are syntactically invalid Python as written
(each opens five parentheses and closes four, an unbalanced `str(` call),
so the module cannot load; this definition embeds the evident intent of
those lines — close the `str(...)` call before `.strip()` — which the
function's own docstring and the rest of its body describe. -/
def importar_empleados_csv (db : DB) (filas : List FilaCSV) : Nat × List String × DB :=
  importarDesde db 0 filas

/-- First micro-step of the "Registrar Operación" handler: the `SELECT
estado FROM equipos WHERE id = ?` read (app.py lines 589-593), performed
on its own sqlite connection which is closed again before anything else
happens. -/
def leerEstado (db : DB) (eid : String) : Option String :=
  (db.equipos.find? (fun e => e.id == eid)).map (fun e => e.estado)

/-- Second micro-step of the handler: validation against the previously
read `estado` value and, when it passes, the write performed by
`registrar_transaccion` on a fresh sqlite connection (app.py lines
595-627).  No database transaction or lock spans the read and this
write. -/
def decidirYEscribir (db : DB) (eid tipo emp email area obs resp : String)
    (fecha : Nat) (visto : Option String) : Resultado × DB :=
  match visto with
  | none => (.equipoInexistente, db)
  | some est =>
      let camposOk : Bool :=
        if tipo == "Entrega" then emp != "" && resp != ""
        else if tipo == "Devolución" then resp != ""
        else false
      if !camposOk then (.faltanCampos, db)
      else if tipo == "Entrega" && est == "Prestado" then
        (.transicionIlegal, db)
      else if tipo == "Devolución" && est == "Disponible" then
        (.transicionIlegal, db)
      else (.exito, registrar_transaccion db eid emp email area tipo obs resp fecha)

/-- Two concurrent sessions each record an `Entrega` for the same
equipment, interleaved as read₁, read₂, write₁, write₂ — the schedule the
two separate sqlite connections of each invocation permit. -/
def carreraEntrega (db : DB) (eid emp1 resp1 emp2 resp2 : String)
    (f1 f2 : Nat) : (Resultado × Resultado) × DB :=
  let v1 := leerEstado db eid
  let v2 := leerEstado db eid
  let p1 := decidirYEscribir db eid "Entrega" emp1 "" "" "" resp1 f1 v1
  let p2 := decidirYEscribir p1.2 eid "Entrega" emp2 "" "" "" resp2 f2 v2
  ((p1.1, p2.1), p2.2)

/-! ## Example databases used by witnesses and counterexamples -/

/-- A database with one registered equipment `E1`, still available. -/
def dbDisponible : DB := (agregar_equipo DB.vacia "E1" "ThinkPad" "Laptop").2

/-- Register `E1`, then issue it to Ana Ruiz at time 1. -/
def opsPrestamo : List Op :=
  [.altaEquipo "E1" "ThinkPad" "Laptop",
   .operacion "E1" "Entrega" "Ana Ruiz" "ana@isep" "Sistemas" "" "IT1" 1]

/-- A database where `E1` has been issued to Ana Ruiz. -/
def dbPrestado : DB := ejecutar DB.vacia opsPrestamo

def opsEmpate : List Op :=
  [.altaEquipo "E1" "ThinkPad" "Laptop",
   .operacion "E1" "Entrega" "Ana Ruiz" "" "Sistemas" "" "IT1" 5,
   .operacion "E1" "Devolución" "Ana Ruiz" "" "Sistemas" "" "IT1" 5]

def dbEmpate : DB := ejecutar DB.vacia opsEmpate

def dbAna : DB :=
  ejecutar DB.vacia
    [.altaEquipo "E1" "ThinkPad" "Laptop",
     .operacion "E1" "Entrega" "Ana" "a@x" "Sistemas" "" "IT1" 1,
     .operacion "E1" "Devolución" "Ana" "a@x" "Sistemas" "" "IT1" 2,
     .operacion "E1" "Entrega" "Ana" "b@x" "Sistemas" "" "IT1" 3]

/-- Register, issue at time 1, return at time 2. -/
def opsCiclo : List Op :=
  [.altaEquipo "E1" "ThinkPad" "Laptop",
   .operacion "E1" "Entrega" "Ana Ruiz" "ana@isep" "Sistemas" "" "IT1" 1,
   .operacion "E1" "Devolución" "Ana Ruiz" "ana@isep" "Sistemas" "" "IT1" 2]

/-- The write-time invariant maintained by the two buttons: equipment ids
are unique, every equipment's transaction kinds form a valid alternating
chain whose final state is the cached `estado`, ids without an equipment
have no transactions, and the log's timestamps strictly increase in rowid
order. -/
structure Inv (db : DB) : Prop where
  idsNodup : (db.equipos.map Equipo.id).Nodup
  coherente : ∀ e ∈ db.equipos,
    cadenaValida "Disponible" ((txnsFor db e.id).map Transaccion.tipo_operacion) = true ∧
    e.estado = estadoFinal ((txnsFor db e.id).map Transaccion.tipo_operacion)
  huerfanas : ∀ eid : String, (∀ e ∈ db.equipos, e.id ≠ eid) → txnsFor db eid = []
  fechasOrd : db.transacciones.Pairwise (fun a b => a.fecha_hora < b.fecha_hora)

/-! ## Basic theorems -/

/-- C5: `deriveStatus` (`obtener_estado_equipo`) is a pure read of the
transaction log: with no transactions it returns
`(Disponible, none, none)`; when the last transaction is an `Entrega` it
returns `(Prestado, that transaction's empleado, its fecha_hora)`; and
otherwise `(Disponible, none, the last transaction's fecha_hora)`. -/
theorem deriveStatus_casos (db : DB) (eid : String) :
    (txnsFor db eid = [] → obtener_estado_equipo db eid = ("Disponible", none, none)) ∧
    (∀ t, getLastTransaction db eid = some t → t.tipo_operacion = "Entrega" →
      obtener_estado_equipo db eid = ("Prestado", some t.empleado, some t.fecha_hora)) ∧
    (∀ t, getLastTransaction db eid = some t → t.tipo_operacion ≠ "Entrega" →
      obtener_estado_equipo db eid = ("Disponible", none, some t.fecha_hora)) := by
  refine ⟨fun h => ?_, fun t ht htipo => ?_, fun t ht htipo => ?_⟩
  · rw [obtener_estado_equipo, getLastTransaction, h]
    rfl
  · rw [obtener_estado_equipo, ht]
    simp [htipo]
  · rw [obtener_estado_equipo, ht]
    simp [htipo]

/-- C5 witness: Scenario A (a fresh equipment derives
`(Disponible, none, none)`) and Scenario B (after an `Entrega` the holder
and timestamp are derived from that transaction). -/
theorem deriveStatus_casos_testigo :
    obtener_estado_equipo dbDisponible "E1" = ("Disponible", none, none) ∧
    obtener_estado_equipo dbPrestado "E1" = ("Prestado", some "Ana Ruiz", some 1) := by
  constructor
  · exact (deriveStatus_casos dbDisponible "E1").1 (by decide)
  · exact (deriveStatus_casos dbPrestado "E1").2.1
      ⟨1, "E1", "Ana Ruiz", "ana@isep", "Sistemas", "Entrega", 1, "", "IT1"⟩
      (by decide) (by decide)

/-- C6: `createEquipment` (`agregar_equipo`) fails when the id is already
present, leaving the whole database unchanged, and otherwise succeeds by
appending the record with initial status `Disponible`. -/
theorem agregar_equipo_especificacion (db : DB) (eid nombre tipo : String) :
    ((∃ e, e ∈ db.equipos ∧ e.id = eid) →
      agregar_equipo db eid nombre tipo = (false, db)) ∧
    ((∀ e ∈ db.equipos, e.id ≠ eid) →
      agregar_equipo db eid nombre tipo =
        (true, { db with equipos := db.equipos ++ [⟨eid, nombre, tipo, "Disponible"⟩] })) := by
  constructor
  · rintro ⟨e, he, hid⟩
    have h : db.equipos.any (fun e => e.id == eid) = true := by
      simp only [List.any_eq_true, beq_iff_eq]
      exact ⟨e, he, hid⟩
    simp [agregar_equipo, h]
  · intro h
    have h' : db.equipos.any (fun e => e.id == eid) = false := by
      simp only [List.any_eq_false, beq_iff_eq]
      exact h
    simp [agregar_equipo, h']

/-- C6 witness: Scenario F — registering `E1` a second time returns
failure with the database unchanged, while the first registration
appended `E1` as `Disponible`. -/
theorem agregar_equipo_especificacion_testigo :
    agregar_equipo dbDisponible "E1" "Otro" "Mouse" = (false, dbDisponible) ∧
    agregar_equipo DB.vacia "E1" "ThinkPad" "Laptop" =
      (true, { DB.vacia with equipos := [⟨"E1", "ThinkPad", "Laptop", "Disponible"⟩] }) := by
  constructor
  · exact (agregar_equipo_especificacion dbDisponible "E1" "Otro" "Mouse").1
      ⟨⟨"E1", "ThinkPad", "Laptop", "Disponible"⟩, by decide, rfl⟩
  · exact (agregar_equipo_especificacion DB.vacia "E1" "ThinkPad" "Laptop").2 (by decide)

/-- C10: `deleteEmployee` (`eliminar_empleado`) reports success for every
id, and an id matching no employee leaves the database unchanged. -/
theorem eliminar_empleado_especificacion (db : DB) (empId : Nat) :
    (eliminar_empleado db empId).1 = true ∧
    ((∀ e ∈ db.empleados, e.id ≠ empId) → eliminar_empleado db empId = (true, db)) := by
  refine ⟨rfl, fun h => ?_⟩
  have h' : db.empleados.filter (fun e => !(e.id == empId)) = db.empleados := by
    rw [List.filter_eq_self]
    intro e he
    simpa using h e he
  simp [eliminar_empleado, h']

/-- C10 witness: deleting a nonexistent employee id 5 from a directory
holding only id 1 succeeds and changes nothing. -/
theorem eliminar_empleado_especificacion_testigo :
    eliminar_empleado ⟨[], [⟨1, "Juan", "Pérez", "Sistemas", "j@isep"⟩], [], 1, 2⟩ 5 =
      (true, ⟨[], [⟨1, "Juan", "Pérez", "Sistemas", "j@isep"⟩], [], 1, 2⟩) :=
  (eliminar_empleado_especificacion
    ⟨[], [⟨1, "Juan", "Pérez", "Sistemas", "j@isep"⟩], [], 1, 2⟩ 5).2 (by decide)

/-- C2: with the required fields present, recording an `Entrega` while the
cached state is `Prestado`, or a `Devolución` while it is `Disponible`,
returns `transicionIlegal` and leaves the database — transaction log and
status cache — exactly as it was. -/
theorem transicion_ilegal_rechaza (db : DB) (e : Equipo)
    (eid emp email area obs resp : String) (fecha : Nat)
    (hfind : db.equipos.find? (fun x => x.id == eid) = some e)
    (hemp : emp ≠ "") (hresp : resp ≠ "") :
    (e.estado = "Prestado" →
      registrarOperacion db eid "Entrega" emp email area obs resp fecha =
        (.transicionIlegal, db)) ∧
    (e.estado = "Disponible" →
      registrarOperacion db eid "Devolución" emp email area obs resp fecha =
        (.transicionIlegal, db)) := by
  constructor
  · intro hest
    simp [registrarOperacion, hfind, hest, bne_iff_ne, hemp, hresp]
  · intro hest
    simp [registrarOperacion, hfind, hest, bne_iff_ne, hresp]

/-- C2 witness: Scenario C (a second `Entrega` on the loaned `E1` is
rejected with no change) and Scenario E (a `Devolución` on an available
`E1` is rejected with no change). -/
theorem transicion_ilegal_rechaza_testigo :
    registrarOperacion dbPrestado "E1" "Entrega" "Beto" "" "" "" "IT2" 9 =
      (.transicionIlegal, dbPrestado) ∧
    registrarOperacion dbDisponible "E1" "Devolución" "Ana" "" "" "" "IT2" 9 =
      (.transicionIlegal, dbDisponible) := by
  constructor
  · exact (transicion_ilegal_rechaza dbPrestado ⟨"E1", "ThinkPad", "Laptop", "Prestado"⟩
      "E1" "Beto" "" "" "" "IT2" 9 (by decide) (by decide) (by decide)).1 rfl
  · exact (transicion_ilegal_rechaza dbDisponible ⟨"E1", "ThinkPad", "Laptop", "Disponible"⟩
      "E1" "Ana" "" "" "" "IT2" 9 (by decide) (by decide) (by decide)).2 rfl

theorem selectLastBest_some_ne_none :
    ∀ (l : List Transaccion) (b : Transaccion), selectLastBest (some b) l ≠ none := by
  intro l
  induction l with
  | nil => intro b h; exact Option.noConfusion h
  | cons t rest ih => intro b; simpa [selectLastBest] using ih _

theorem selectLastBest_especificacion :
    ∀ (l : List Transaccion) (b r : Transaccion),
      selectLastBest (some b) l = some r →
      (r = b ∨ r ∈ l) ∧ b.fecha_hora ≤ r.fecha_hora ∧
        ∀ u ∈ l, u.fecha_hora ≤ r.fecha_hora := by
  intro l
  induction l with
  | nil =>
      intro b r h
      obtain rfl : b = r := Option.some.inj h
      exact ⟨Or.inl rfl, le_refl _, by simp⟩
  | cons t rest ih =>
      intro b r h
      rw [selectLastBest] at h
      by_cases hlt : b.fecha_hora < t.fecha_hora
      · rw [if_pos hlt] at h
        obtain ⟨hmem, hble, hall⟩ := ih t r h
        refine ⟨?_, le_trans (le_of_lt hlt) hble, ?_⟩
        · rcases hmem with rfl | hm
          · exact Or.inr (List.mem_cons_self _ _)
          · exact Or.inr (List.mem_cons_of_mem _ hm)
        · intro u hu
          rcases List.mem_cons.mp hu with rfl | hu'
          · exact hble
          · exact hall u hu'
      · rw [if_neg hlt] at h
        obtain ⟨hmem, hble, hall⟩ := ih b r h
        refine ⟨?_, hble, ?_⟩
        · rcases hmem with rfl | hm
          · exact Or.inl rfl
          · exact Or.inr (List.mem_cons_of_mem _ hm)
        · intro u hu
          rcases List.mem_cons.mp hu with rfl | hu'
          · exact le_trans (not_lt.mp hlt) hble
          · exact hall u hu'

/-- C7 (amended): `getLastTransaction` returns `none` exactly when the id
has no transactions, and otherwise returns a transaction of that id whose
`fecha_hora` is greatest; the query has no id tie-break, so nothing more
is guaranteed on equal timestamps. -/
theorem ultima_transaccion_maxima (db : DB) (eid : String) :
    (txnsFor db eid = [] ↔ getLastTransaction db eid = none) ∧
    (∀ t, getLastTransaction db eid = some t →
      t ∈ txnsFor db eid ∧ ∀ u ∈ txnsFor db eid, u.fecha_hora ≤ t.fecha_hora) := by
  constructor
  · constructor
    · intro h; rw [getLastTransaction, h]; rfl
    · intro h
      by_contra hne
      obtain ⟨x, xs, hx⟩ : ∃ x xs, txnsFor db eid = x :: xs := by
        cases hl : txnsFor db eid with
        | nil => exact absurd hl hne
        | cons x xs => exact ⟨x, xs, rfl⟩
      rw [getLastTransaction, hx] at h
      exact selectLastBest_some_ne_none xs x (by simpa [selectLastBest] using h)
  · intro t ht
    rw [getLastTransaction] at ht
    cases hl : txnsFor db eid with
    | nil => rw [hl] at ht; exact Option.noConfusion ht
    | cons x xs =>
        rw [hl] at ht
        rw [selectLastBest] at ht
        obtain ⟨hmem, hble, hall⟩ := selectLastBest_especificacion xs x t ht
        refine ⟨?_, ?_⟩
        · rcases hmem with rfl | hm
          · exact List.mem_cons_self _ _
          · exact List.mem_cons_of_mem _ hm
        · intro u hu
          rcases List.mem_cons.mp hu with rfl | hu'
          · exact hble
          · exact hall u hu'



/-- C7 counterexample: with an `Entrega` (id 1) and a `Devolución` (id 2)
recorded in the same second (both `fecha_hora = 5`), the query returns the
row with id 1, not the tied row with the greatest id 2. -/
theorem ultimo_empate_contraejemplo :
    txnsFor dbEmpate "E1" =
      [⟨1, "E1", "Ana Ruiz", "", "Sistemas", "Entrega", 5, "", "IT1"⟩,
       ⟨2, "E1", "Ana Ruiz", "", "Sistemas", "Devolución", 5, "", "IT1"⟩] ∧
    getLastTransaction dbEmpate "E1" =
      some ⟨1, "E1", "Ana Ruiz", "", "Sistemas", "Entrega", 5, "", "IT1"⟩ := by decide

/-- The handler equals its two micro-steps run back to back: the cached
`estado` read on one connection followed by validate-and-write on a fresh
connection. -/
theorem registrarOperacion_micro (db : DB) (eid tipo emp email area obs resp : String)
    (fecha : Nat) :
    registrarOperacion db eid tipo emp email area obs resp fecha =
      decidirYEscribir db eid tipo emp email area obs resp fecha (leerEstado db eid) := by
  cases h : db.equipos.find? (fun e => e.id == eid) <;>
    simp [registrarOperacion, decidirYEscribir, leerEstado, h]

/-- C4: the lost-update schedule.  Starting from `E1` available, two
sessions both read `estado` before either writes; both validations pass,
both writes happen, and the log for `E1` ends with two consecutive
`Entrega` rows — a double loan, contradicting the claimed atomicity of
read-validate-append-update. -/
theorem carrera_doble_prestamo :
    (carreraEntrega dbDisponible "E1" "Ana Ruiz" "IT1" "Beto Díaz" "IT2" 1 2).1 =
      (.exito, .exito) ∧
    ((carreraEntrega dbDisponible "E1" "Ana Ruiz" "IT1" "Beto Díaz" "IT2" 1 2).2.transacciones.map
      (fun t => t.tipo_operacion)) = ["Entrega", "Entrega"] := by decide


/-- C8 counterexample: issuing to "Ana" with email `a@x` and later with
email `b@x` makes `obtener_empleados_activos` return two rows both named
"Ana" — the result is not deduplicated by holder name. -/
theorem empleados_activos_contraejemplo :
    (obtener_empleados_activos dbAna).map (fun h => h.1) = ["Ana", "Ana"] := by
  have h1 : ((dbAna.transacciones.filter (fun t => t.tipo_operacion == "Entrega")).map
      (fun t => (t.empleado, t.email, t.area))).dedup =
      [("Ana", "a@x", "Sistemas"), ("Ana", "b@x", "Sistemas")] := by decide
  rw [obtener_empleados_activos, h1]
  simp [List.insertionSort, List.orderedInsert]



/-- C8 (amended): `obtener_empleados_activos` returns the distinct
(name, email, area) triples of all `Entrega` transactions — no triple
repeated — ordered (weakly) by name. -/
theorem empleados_activos_especificacion (db : DB) :
    (obtener_empleados_activos db).Nodup ∧
    List.Sorted (· ≤ ·) ((obtener_empleados_activos db).map (fun h => h.1)) ∧
    ∀ h : Fila, h ∈ obtener_empleados_activos db ↔
      ∃ t, t ∈ db.transacciones ∧ t.tipo_operacion = "Entrega" ∧
        (t.empleado, t.email, t.area) = h := by
  haveI htot : IsTotal Fila (fun a b : Fila => a.1 ≤ b.1) := ⟨fun a b => le_total a.1 b.1⟩
  haveI htrans : IsTrans Fila (fun a b : Fila => a.1 ≤ b.1) :=
    ⟨fun a b c hab hbc => le_trans hab hbc⟩
  refine ⟨?_, ?_, ?_⟩
  · exact (List.perm_insertionSort _ _).nodup_iff.mpr (List.nodup_dedup _)
  · have hs := List.sorted_insertionSort (fun a b : Fila => a.1 ≤ b.1)
      (((db.transacciones.filter (fun t => t.tipo_operacion == "Entrega")).map
        (fun t => (t.empleado, t.email, t.area))).dedup)
    rw [List.Sorted, List.pairwise_map]
    exact hs
  · intro h
    rw [obtener_empleados_activos, (List.perm_insertionSort _ _).mem_iff, List.mem_dedup,
      List.mem_map]
    constructor
    · rintro ⟨t, ht, rfl⟩
      rw [List.mem_filter] at ht
      exact ⟨t, ht.1, by simpa using ht.2, rfl⟩
    · rintro ⟨t, ht, htipo, rfl⟩
      exact ⟨t, List.mem_filter.mpr ⟨ht, by simp [htipo]⟩, rfl⟩

/-- C8 witness: the specification applied to the concrete `dbAna`. -/
theorem empleados_activos_especificacion_testigo :
    (obtener_empleados_activos dbAna).Nodup :=
  (empleados_activos_especificacion dbAna).1

/-- Row-by-row specification of the import loop, for any starting
database and DataFrame index. -/
theorem importarDesde_especificacion :
    ∀ (filas : List FilaCSV) (db : DB) (idx : Nat),
      (importarDesde db idx filas).1 = (filas.filter (fun f => !filaIncompleta f)).length ∧
      (importarDesde db idx filas).2.1.length = (filas.filter filaIncompleta).length ∧
      (importarDesde db idx filas).2.2.empleados.map
          (fun e => (e.nombre, e.apellido, e.area, e.email)) =
        db.empleados.map (fun e => (e.nombre, e.apellido, e.area, e.email)) ++
          (filas.filter (fun f => !filaIncompleta f)).map
            (fun f => (f.nombre.trim, f.apellido.trim, f.area.trim, f.email.trim)) := by
  intro filas
  induction filas with
  | nil => intro db idx; simp [importarDesde]
  | cons f rest ih =>
      intro db idx
      cases hf : filaIncompleta f with
      | true =>
          obtain ⟨ih1, ih2, ih3⟩ := ih db (idx + 1)
          simp only [importarDesde, hf, if_pos, List.filter_cons, Bool.not_true,
            List.length_cons]
          simp [ih1, ih2, ih3]
      | false =>
          obtain ⟨ih1, ih2, ih3⟩ := ih { db with
            empleados := db.empleados ++
              [⟨db.nextEmpId, f.nombre.trim, f.apellido.trim, f.area.trim, f.email.trim⟩]
            nextEmpId := db.nextEmpId + 1 } (idx + 1)
          simp only [importarDesde, hf, List.filter_cons, Bool.not_false, List.length_cons]
          simp [ih1, ih2, ih3]

/-- C9: bulk import always completes, returning the count of imported
rows (exactly the rows whose area, nombre and apellido are non-blank
after stripping — a blank email does not disqualify a row) and one error
entry per rejected row; rejected rows are not inserted, and the imported
rows are appended with their stripped field values. -/
theorem importar_empleados_especificacion (db : DB) (filas : List FilaCSV) :
    (importar_empleados_csv db filas).1 =
        (filas.filter (fun f => !filaIncompleta f)).length ∧
    (importar_empleados_csv db filas).2.1.length =
        (filas.filter filaIncompleta).length ∧
    (importar_empleados_csv db filas).2.2.empleados.map
        (fun e => (e.nombre, e.apellido, e.area, e.email)) =
      db.empleados.map (fun e => (e.nombre, e.apellido, e.area, e.email)) ++
        (filas.filter (fun f => !filaIncompleta f)).map
          (fun f => (f.nombre.trim, f.apellido.trim, f.area.trim, f.email.trim)) :=
  importarDesde_especificacion filas db 0



theorem estadoFinalFrom_cons (est k : String) (ks : List String) :
    estadoFinalFrom est (k :: ks) = estadoFinalFrom (estadoTrasOperacion k) ks := rfl

theorem estadoFinalFrom_snoc (est k : String) (ks : List String) :
    estadoFinalFrom est (ks ++ [k]) = estadoTrasOperacion k := by
  simp [estadoFinalFrom, List.foldl_append]

theorem estadoFinalFrom_mem :
    ∀ (ks : List String) (est : String),
      est = "Disponible" ∨ est = "Prestado" →
      (estadoFinalFrom est ks = "Disponible" ∨ estadoFinalFrom est ks = "Prestado") := by
  intro ks
  induction ks with
  | nil => intro est h; simpa [estadoFinalFrom] using h
  | cons k0 rest ih =>
      intro est h
      rw [estadoFinalFrom_cons]
      apply ih
      cases hk : k0 == "Entrega" <;> simp [estadoTrasOperacion, hk]

theorem cadenaValida_snoc (k : String) :
    ∀ (ks : List String) (est : String),
      cadenaValida est (ks ++ [k]) =
        (cadenaValida est ks && cadenaValida (estadoFinalFrom est ks) [k]) := by
  intro ks
  induction ks with
  | nil =>
      intro est
      simp [estadoFinalFrom, cadenaValida]
  | cons k0 rest ih =>
      intro est
      rw [List.cons_append]
      cases hd : est == "Disponible" with
      | true =>
          cases hk : k0 == "Entrega" with
          | true =>
              have hk0 : k0 = "Entrega" := by simpa using hk
              have hk' : estadoTrasOperacion k0 = "Prestado" := by rw [hk0]; rfl
              simp [cadenaValida, hd, hk, estadoFinalFrom_cons, hk', ih]
          | false => simp [cadenaValida, hd, hk]
      | false =>
          cases hp : est == "Prestado" with
          | true =>
              cases hk : k0 == "Devolución" with
              | true =>
                  have hk0 : k0 = "Devolución" := by simpa using hk
                  have hk' : estadoTrasOperacion k0 = "Disponible" := by rw [hk0]; rfl
                  simp [cadenaValida, hd, hp, hk, estadoFinalFrom_cons, hk', ih]
              | false => simp [cadenaValida, hd, hp, hk]
          | false => simp [cadenaValida, hd, hp]



theorem registrar_transacciones (db : DB) (eid emp email area tipo obs resp : String)
    (fecha : Nat) :
    (registrar_transaccion db eid emp email area tipo obs resp fecha).transacciones =
      db.transacciones ++
        [⟨db.nextTransId, eid, emp, email, area, tipo, fecha, obs, resp⟩] := rfl

theorem txnsFor_registrar (db : DB) (eid emp email area tipo obs resp : String)
    (fecha : Nat) (eid' : String) :
    txnsFor (registrar_transaccion db eid emp email area tipo obs resp fecha) eid' =
      txnsFor db eid' ++
        (if eid == eid'
          then [⟨db.nextTransId, eid, emp, email, area, tipo, fecha, obs, resp⟩]
          else []) := by
  simp only [txnsFor, registrar_transaccion, List.filter_append]
  congr 1
  cases h : eid == eid' <;> simp [List.filter_cons, h]

theorem equipos_ids_registrar (db : DB) (eid emp email area tipo obs resp : String)
    (fecha : Nat) :
    (registrar_transaccion db eid emp email area tipo obs resp fecha).equipos.map Equipo.id =
      db.equipos.map Equipo.id := by
  simp only [registrar_transaccion, List.map_map]
  apply List.map_congr_left
  intro e _
  by_cases h : e.id = eid <;> simp [h]


theorem inv_vacia : Inv DB.vacia := by
  refine ⟨List.nodup_nil, ?_, ?_, List.Pairwise.nil⟩
  · intro e he
    exact absurd he (List.not_mem_nil e)
  · intro z _
    rfl

theorem inv_alta (db : DB) (eid nombre tipo : String) (h : Inv db) :
    Inv (agregar_equipo db eid nombre tipo).2 ∧
    (agregar_equipo db eid nombre tipo).2.transacciones = db.transacciones := by
  cases hany : db.equipos.any (fun e => e.id == eid) with
  | true =>
      have hres : agregar_equipo db eid nombre tipo = (false, db) := by
        simp [agregar_equipo, hany]
      rw [hres]
      exact ⟨h, rfl⟩
  | false =>
      have hres : agregar_equipo db eid nombre tipo =
          (true, { db with equipos := db.equipos ++ [⟨eid, nombre, tipo, "Disponible"⟩] }) := by
        simp [agregar_equipo, hany]
      rw [hres]
      have hn : ∀ e ∈ db.equipos, e.id ≠ eid := by
        intro e he
        have := List.any_eq_false.mp hany e he
        simpa using this
      refine ⟨⟨?_, ?_, ?_, ?_⟩, rfl⟩
      · simp only [List.map_append, List.map_cons, List.map_nil]
        refine List.Nodup.append h.idsNodup (List.nodup_singleton _) ?_
        intro a ha hb
        rw [List.mem_singleton] at hb
        obtain ⟨e, he, hid⟩ := List.mem_map.mp ha
        exact hn e he (hid.trans hb)
      · intro e' he'
        rcases List.mem_append.mp he' with he | he
        · simpa [txnsFor] using h.coherente e' he
        · rw [List.mem_singleton] at he
          subst he
          have hvac : txnsFor db eid = [] := h.huerfanas eid hn
          have hvac' : txnsFor { db with equipos := db.equipos ++ [⟨eid, nombre, tipo, "Disponible"⟩] } eid = [] := hvac
          simp [hvac', cadenaValida, estadoFinal, estadoFinalFrom]
      · intro z hz
        have : ∀ e ∈ db.equipos, e.id ≠ z := by
          intro e he
          exact hz e (List.mem_append.mpr (Or.inl he))
        exact h.huerfanas z this
      · exact h.fechasOrd



/-- Every run of the handler either leaves the database untouched (one of
the rejection branches) or finds the equipment, passes all validations,
and hands off to `registrar_transaccion`. -/
theorem registrarOperacion_forma (db : DB) (eid tipo emp email area obs resp : String)
    (fecha : Nat) :
    (registrarOperacion db eid tipo emp email area obs resp fecha).2 = db ∨
    ∃ e, db.equipos.find? (fun x => x.id == eid) = some e ∧
      ((tipo = "Entrega" ∧ e.estado ≠ "Prestado") ∨
       (tipo = "Devolución" ∧ e.estado ≠ "Disponible")) ∧
      registrarOperacion db eid tipo emp email area obs resp fecha =
        (.exito, registrar_transaccion db eid emp email area tipo obs resp fecha) := by
  cases hf : db.equipos.find? (fun x => x.id == eid) with
  | none => left; simp [registrarOperacion, hf]
  | some e =>
      by_cases ht : tipo = "Entrega"
      · subst ht
        by_cases hemp : emp = ""
        · left; simp [registrarOperacion, hf, hemp]
        · by_cases hresp : resp = ""
          · left; simp [registrarOperacion, hf, hemp, hresp]
          · by_cases hest : e.estado = "Prestado"
            · left; simp [registrarOperacion, hf, hemp, hresp, hest]
            · right
              refine ⟨e, rfl, Or.inl ⟨rfl, hest⟩, ?_⟩
              simp [registrarOperacion, hf, hemp, hresp, hest]
      · by_cases hd : tipo = "Devolución"
        · subst hd
          by_cases hresp : resp = ""
          · left; simp [registrarOperacion, hf, hresp]
          · by_cases hest : e.estado = "Disponible"
            · left; simp [registrarOperacion, hf, hresp, hest]
            · right
              refine ⟨e, rfl, Or.inr ⟨rfl, hest⟩, ?_⟩
              simp [registrarOperacion, hf, hresp, hest]
        · left; simp [registrarOperacion, hf, ht, hd]



theorem registrar_equipos (db : DB) (eid emp email area tipo obs resp : String)
    (fecha : Nat) :
    (registrar_transaccion db eid emp email area tipo obs resp fecha).equipos =
      db.equipos.map (fun e =>
        if e.id == eid then { e with estado := estadoTrasOperacion tipo } else e) := rfl

theorem inv_operacion (db : DB) (eid tipo emp email area obs resp : String) (fecha : Nat)
    (h : Inv db) (hbd : ∀ t ∈ db.transacciones, t.fecha_hora < fecha) :
    Inv (registrarOperacion db eid tipo emp email area obs resp fecha).2 ∧
    ∀ t ∈ (registrarOperacion db eid tipo emp email area obs resp fecha).2.transacciones,
      t.fecha_hora ≤ fecha := by
  rcases registrarOperacion_forma db eid tipo emp email area obs resp fecha with
    heq | ⟨e, hf, hval, heq⟩
  · rw [heq]
    exact ⟨h, fun t ht => le_of_lt (hbd t ht)⟩
  · rw [heq]
    dsimp only
    have he_mem : e ∈ db.equipos := List.mem_of_find?_eq_some hf
    have he_id : e.id = eid := by
      have := List.find?_some hf
      simpa using this
    have huniq : ∀ e' ∈ db.equipos, e'.id = eid → e' = e := by
      intro e' he' hid
      exact List.inj_on_of_nodup_map h.idsNodup he' he_mem (by rw [hid, he_id])
    obtain ⟨hcad, hest⟩ := h.coherente e he_mem
    rw [he_id] at hcad hest
    have hstep : cadenaValida
        (estadoFinal ((txnsFor db eid).map Transaccion.tipo_operacion)) [tipo] = true := by
      have hmem2 := estadoFinalFrom_mem
        ((txnsFor db eid).map Transaccion.tipo_operacion) "Disponible" (Or.inl rfl)
      rw [estadoFinal] at hest ⊢
      rcases hval with ⟨rfl, hne⟩ | ⟨rfl, hne⟩
      · have hd : estadoFinalFrom "Disponible"
            ((txnsFor db eid).map Transaccion.tipo_operacion) = "Disponible" := by
          rcases hmem2 with h1 | h1
          · exact h1
          · exact absurd (hest.trans h1) hne
        rw [hd]
        rfl
      · have hd : estadoFinalFrom "Disponible"
            ((txnsFor db eid).map Transaccion.tipo_operacion) = "Prestado" := by
          rcases hmem2 with h1 | h1
          · exact absurd (hest.trans h1) hne
          · exact h1
        rw [hd]
        rfl
    refine ⟨⟨?_, ?_, ?_, ?_⟩, ?_⟩
    · rw [equipos_ids_registrar]
      exact h.idsNodup
    · intro e' he'
      rw [registrar_equipos] at he'
      obtain ⟨e₀, he₀, hupd⟩ := List.mem_map.mp he'
      by_cases h0 : e₀.id = eid
      · have he₀e : e₀ = e := huniq e₀ he₀ h0
        subst he₀e
        simp only [h0, beq_self_eq_true, if_true] at hupd
        subst hupd
        dsimp only
        rw [txnsFor_registrar]
        simp only [beq_self_eq_true, if_true, List.map_append, List.map_cons, List.map_nil]
        constructor
        · rw [cadenaValida_snoc, Bool.and_eq_true]
          exact ⟨hcad, hstep⟩
        · rw [estadoFinal, estadoFinalFrom_snoc]
      · have hne0 : (e₀.id == eid) = false := by
          rw [beq_eq_false_iff_ne]
          exact h0
        rw [hne0] at hupd
        simp only [Bool.false_eq_true, if_false] at hupd
        subst hupd
        have hne1 : (eid == e₀.id) = false := by
          rw [beq_eq_false_iff_ne]
          exact fun hh => h0 hh.symm
        rw [txnsFor_registrar, hne1]
        simp only [Bool.false_eq_true, if_false, List.append_nil]
        exact h.coherente e₀ he₀
    · intro z hz
      rw [registrar_equipos] at hz
      have hzdb : ∀ x ∈ db.equipos, x.id ≠ z := by
        intro x hx
        have hmem' := hz _ (List.mem_map_of_mem
          (fun e => if e.id == eid then { e with estado := estadoTrasOperacion tipo } else e) hx)
        by_cases hb : x.id = eid
        · simpa [hb] using hmem'
        · simpa [hb] using hmem'
      have hold : txnsFor db z = [] := h.huerfanas z hzdb
      have hne : (eid == z) = false := by
        rw [beq_eq_false_iff_ne]
        intro hez
        exact hzdb e he_mem (he_id.trans hez)
      rw [txnsFor_registrar, hold, hne]
      simp
    · rw [registrar_transacciones, List.pairwise_append]
      refine ⟨h.fechasOrd, by simp, ?_⟩
      intro a ha b hb
      rw [List.mem_singleton] at hb
      subst hb
      exact hbd a ha
    · intro t ht
      rw [registrar_transacciones] at ht
      rcases List.mem_append.mp ht with h1 | h1
      · exact le_of_lt (hbd t h1)
      · rw [List.mem_singleton] at h1
        subst h1
        exact le_refl _



theorem inv_ejecutar :
    ∀ (ops : List Op) (db : DB), Inv db →
      (fechas ops).Pairwise (· < ·) →
      (∀ t ∈ db.transacciones, ∀ f ∈ fechas ops, t.fecha_hora < f) →
      Inv (ejecutar db ops) := by
  intro ops
  induction ops with
  | nil => intro db h _ _; exact h
  | cons op ops ih =>
      intro db h hp hb
      rw [ejecutar, List.foldl_cons]
      cases op with
      | altaEquipo eid nombre tipo =>
          obtain ⟨h1, h2⟩ := inv_alta db eid nombre tipo h
          refine ih _ h1 hp ?_
          rw [aplicar, h2]
          exact hb
      | operacion eid tipo emp email area obs resp fecha =>
          rw [fechas] at hp hb
          rw [List.pairwise_cons] at hp
          obtain ⟨hfall, hrest⟩ := hp
          have hbd : ∀ t ∈ db.transacciones, t.fecha_hora < fecha := by
            intro t ht
            exact hb t ht fecha (List.mem_cons_self _ _)
          obtain ⟨h1, h2⟩ := inv_operacion db eid tipo emp email area obs resp fecha h hbd
          refine ih _ h1 hrest ?_
          intro t ht f hf
          exact lt_of_le_of_lt (h2 t ht) (hfall f hf)

theorem cadena_alterna :
    ∀ (ks : List String) (est : String),
      cadenaValida est ks = true →
      est = "Disponible" ∨ est = "Prestado" →
      (∀ k, ks.head? = some k →
        k = (if est = "Disponible" then "Entrega" else "Devolución")) ∧
      List.Chain' (· ≠ ·) ks := by
  intro ks
  induction ks with
  | nil =>
      intro est _ _
      exact ⟨fun k hk => Option.noConfusion hk, List.chain'_nil⟩
  | cons k0 rest ih =>
      intro est hv hest
      rcases hest with rfl | rfl
      · simp only [cadenaValida, beq_self_eq_true, if_true, Bool.and_eq_true,
          beq_iff_eq] at hv
        obtain ⟨rfl, hrest⟩ := hv
        obtain ⟨ihhead, ihchain⟩ := ih "Prestado" hrest (Or.inr rfl)
        refine ⟨?_, ?_⟩
        · intro k hk
          rw [List.head?_cons] at hk
          simp only [if_pos rfl]
          exact (Option.some.inj hk).symm
        · rw [List.chain'_cons']
          refine ⟨?_, ihchain⟩
          intro y hy
          have := ihhead y hy
          rw [if_neg (by decide)] at this
          rw [this]
          decide
      · simp only [cadenaValida] at hv
        have hc : ("Prestado" == "Prestado") = true := by decide
        have hc1 : ¬ (("Prestado" == "Disponible") = true) := by decide
        rw [if_pos hc, if_neg hc1, Bool.and_eq_true, beq_iff_eq] at hv
        obtain ⟨rfl, hrest⟩ := hv
        obtain ⟨ihhead, ihchain⟩ := ih "Disponible" hrest (Or.inl rfl)
        refine ⟨?_, ?_⟩
        · intro k hk
          rw [List.head?_cons] at hk
          rw [if_neg (by decide)]
          exact (Option.some.inj hk).symm
        · rw [List.chain'_cons']
          refine ⟨?_, ihchain⟩
          intro y hy
          have := ihhead y hy
          rw [if_pos rfl] at this
          rw [this]
          decide



/-- C1: after any sequence of operations whose clock readings strictly
increase, the transactions recorded for any equipment id are strictly
ordered by timestamp (so rowid order is the timestamp order), and their
kinds strictly alternate starting with `Entrega` (Issue): the kind list
is a valid chain from `Disponible`, its first element (if any) is
`Entrega`, and no two adjacent kinds are equal. -/
theorem alternancia_estricta (ops : List Op)
    (hops : (fechas ops).Pairwise (· < ·)) (eid : String) :
    (txnsFor (ejecutar DB.vacia ops) eid).Pairwise
      (fun a b => a.fecha_hora < b.fecha_hora) ∧
    cadenaValida "Disponible"
      ((txnsFor (ejecutar DB.vacia ops) eid).map Transaccion.tipo_operacion) = true ∧
    (∀ k, ((txnsFor (ejecutar DB.vacia ops) eid).map Transaccion.tipo_operacion).head? =
        some k → k = "Entrega") ∧
    List.Chain' (· ≠ ·)
      ((txnsFor (ejecutar DB.vacia ops) eid).map Transaccion.tipo_operacion) := by
  have hinv : Inv (ejecutar DB.vacia ops) :=
    inv_ejecutar ops DB.vacia inv_vacia hops
      (by intro t ht _ _; exact absurd ht (by simp [DB.vacia]))
  have hcad : cadenaValida "Disponible"
      ((txnsFor (ejecutar DB.vacia ops) eid).map Transaccion.tipo_operacion) = true := by
    by_cases hex : ∃ e ∈ (ejecutar DB.vacia ops).equipos, e.id = eid
    · obtain ⟨e, he, hid⟩ := hex
      have := (hinv.coherente e he).1
      rwa [hid] at this
    · push_neg at hex
      rw [hinv.huerfanas eid hex]
      rfl
  have hsub : List.Sublist (txnsFor (ejecutar DB.vacia ops) eid)
      (ejecutar DB.vacia ops).transacciones :=
    List.filter_sublist _
  obtain ⟨hhead, hchain⟩ := cadena_alterna _ "Disponible" hcad (Or.inl rfl)
  refine ⟨hinv.fechasOrd.sublist hsub, hcad, ?_, hchain⟩
  intro k hk
  have := hhead k hk
  rwa [if_pos rfl] at this


/-- C1 witness: registering `E1`, issuing it at time 1 and returning it
at time 2 yields the alternating kind list `Entrega, Devolución`. -/
theorem alternancia_estricta_testigo :
    cadenaValida "Disponible"
      ((txnsFor (ejecutar DB.vacia opsCiclo) "E1").map Transaccion.tipo_operacion) =
      true :=
  (alternancia_estricta opsCiclo (by decide) "E1").2.1

theorem selectLastBest_ordenado :
    ∀ (xs : List Transaccion) (x : Transaccion),
      (∀ u ∈ xs, x.fecha_hora < u.fecha_hora) →
      xs.Pairwise (fun a b => a.fecha_hora < b.fecha_hora) →
      selectLastBest (some x) xs = some (xs.getLastD x) := by
  intro xs
  induction xs with
  | nil => intro x _ _; rfl
  | cons u xs' ih =>
      intro x hall hp
      rw [selectLastBest, if_pos (hall u (List.mem_cons_self _ _))]
      rw [List.pairwise_cons] at hp
      rw [ih u hp.1 hp.2, List.getLastD_cons]

theorem estadoFinal_map :
    ∀ (xs : List Transaccion) (x : Transaccion) (est : String),
      estadoFinalFrom est ((x :: xs).map Transaccion.tipo_operacion) =
        estadoTrasOperacion (xs.getLastD x).tipo_operacion := by
  intro xs
  induction xs with
  | nil => intro x est; rfl
  | cons u xs' ih =>
      intro x est
      rw [List.map_cons, estadoFinalFrom_cons, List.getLastD_cons]
      exact ih u (estadoTrasOperacion x.tipo_operacion)



/-- C3: after any sequence of operations with strictly increasing clock
readings, every equipment's cached `estado` agrees with the derivation
from the log: it equals the status component of `obtener_estado_equipo`,
it is `Prestado` iff the most recent transaction (greatest timestamp) has
kind `Entrega`, and it is `Disponible` otherwise (no transactions or a
most recent `Devolución`). -/
theorem estado_cache_consistente (ops : List Op)
    (hops : (fechas ops).Pairwise (· < ·)) :
    ∀ e ∈ (ejecutar DB.vacia ops).equipos,
      e.estado = (obtener_estado_equipo (ejecutar DB.vacia ops) e.id).1 ∧
      (e.estado = "Prestado" ↔
        (getLastTransaction (ejecutar DB.vacia ops) e.id).map Transaccion.tipo_operacion =
          some "Entrega") ∧
      (e.estado = "Disponible" ↔
        ¬ (getLastTransaction (ejecutar DB.vacia ops) e.id).map Transaccion.tipo_operacion =
          some "Entrega") := by
  have hinv : Inv (ejecutar DB.vacia ops) :=
    inv_ejecutar ops DB.vacia inv_vacia hops
      (by intro t ht _ _; exact absurd ht (by simp [DB.vacia]))
  intro e he
  obtain ⟨hcad, hest⟩ := hinv.coherente e he
  have hsorted : (txnsFor (ejecutar DB.vacia ops) e.id).Pairwise
      (fun a b => a.fecha_hora < b.fecha_hora) :=
    hinv.fechasOrd.sublist (List.filter_sublist _)
  cases hl : txnsFor (ejecutar DB.vacia ops) e.id with
  | nil =>
      rw [hl, List.map_nil] at hest
      have hD : e.estado = "Disponible" := hest
      have hnone : getLastTransaction (ejecutar DB.vacia ops) e.id = none := by
        rw [getLastTransaction, hl]
        rfl
      refine ⟨?_, ?_, ?_⟩
      · rw [obtener_estado_equipo, hnone, hD]
      · rw [hnone]
        constructor
        · intro hP
          exact absurd (hD.symm.trans hP) (by decide)
        · intro hx
          exact absurd hx (by simp)
      · rw [hnone]
        constructor
        · intro _
          simp
        · intro _
          exact hD
  | cons x xs =>
      rw [hl] at hsorted hest
      rw [List.pairwise_cons] at hsorted
      have hsel : getLastTransaction (ejecutar DB.vacia ops) e.id =
          some (xs.getLastD x) := by
        rw [getLastTransaction, hl, selectLastBest]
        exact selectLastBest_ordenado xs x hsorted.1 hsorted.2
      rw [estadoFinal, estadoFinal_map xs x "Disponible"] at hest
      cases hk : (xs.getLastD x).tipo_operacion == "Entrega" with
      | true =>
          have hk' : (xs.getLastD x).tipo_operacion = "Entrega" := by simpa using hk
          have hP : e.estado = "Prestado" := by
            rw [hest, estadoTrasOperacion, if_pos hk]
          refine ⟨?_, ?_, ?_⟩
          · have hg : (xs.getLast?.getD x).tipo_operacion = "Entrega" := by
              rw [← List.getLastD_eq_getLast?]
              exact hk'
            rw [obtener_estado_equipo, hsel]
            simp [hg, hP]
          · constructor
            · intro _
              rw [hsel, Option.map_some', hk']
            · intro _
              exact hP
          · constructor
            · intro hD
              exact absurd (hP.symm.trans hD) (by decide)
            · intro hx
              exfalso
              apply hx
              rw [hsel, Option.map_some', hk']
      | false =>
          have hk' : (xs.getLastD x).tipo_operacion ≠ "Entrega" := by simpa using hk
          have hkf : ¬ (((xs.getLastD x).tipo_operacion == "Entrega") = true) := by
            intro hC
            rw [hk] at hC
            exact absurd hC (by decide)
          have hD : e.estado = "Disponible" := by
            rw [hest, estadoTrasOperacion, if_neg hkf]
          refine ⟨?_, ?_, ?_⟩
          · have hg : ¬ (xs.getLast?.getD x).tipo_operacion = "Entrega" := by
              rw [← List.getLastD_eq_getLast?]
              exact hk'
            rw [obtener_estado_equipo, hsel]
            simp [hg, hD]
          · constructor
            · intro hP
              exact absurd (hD.symm.trans hP) (by decide)
            · intro hx
              rw [hsel, Option.map_some'] at hx
              exact absurd (Option.some.inj hx) hk'
          · constructor
            · intro _
              intro hx
              rw [hsel, Option.map_some'] at hx
              exact absurd (Option.some.inj hx) hk'
            · intro _
              exact hD

/-- C3 witness: after registering `E1` and issuing it at time 1, the
cached status `Prestado` agrees with the status derived from the log. -/
theorem estado_cache_consistente_testigo :
    (⟨"E1", "ThinkPad", "Laptop", "Prestado"⟩ : Equipo).estado =
      (obtener_estado_equipo (ejecutar DB.vacia opsPrestamo)
        (⟨"E1", "ThinkPad", "Laptop", "Prestado"⟩ : Equipo).id).1 :=
  (estado_cache_consistente opsPrestamo (by decide) _ (by decide)).1

/-- C7 witness: in `dbPrestado` the returned last transaction for `E1`
is a member of `E1`'s transaction list. -/
theorem ultima_transaccion_maxima_testigo :
    (⟨1, "E1", "Ana Ruiz", "ana@isep", "Sistemas", "Entrega", 1, "", "IT1"⟩ : Transaccion) ∈
      txnsFor dbPrestado "E1" :=
  ((ultima_transaccion_maxima dbPrestado "E1").2
    ⟨1, "E1", "Ana Ruiz", "ana@isep", "Sistemas", "Entrega", 1, "", "IT1"⟩ (by decide)).1

end Prestamos
